import Mathlib

/-!
Shallow embedding of `src/uipc_bridge.c` (wineUIPC): the frame parser
(`calc_block_len`), the hex codec (`hex_encode` / `hex_decode`), the bridge
client (`send_json_request`, `forward_block`), the reconnection logic
(`ensure_socket`, `close_socket`, the timer helpers) and the shared-region
dispatcher (`ensure_shared_ctx`, `forward_shared_request`,
`handle_registered_request`).

Modelling conventions:
* a `uint8_t` cell is a `Nat` reduced mod 256 at every read, so buffers can
  be arbitrary `Nat → Nat` functions (a pointer) paired with an explicit
  available byte count, or `List Nat` values where the C code owns the
  allocation;
* `size_t` / `DWORD` arithmetic is modelled as unbounded `Nat` (64-bit
  `size_t` semantics: no operand reachable here approaches 2^64);
* socket, mapping and timer system calls are modelled by explicit outcome
  parameters (`ConnectOutcome`, `MapEnv`, `NetEnv`) threaded through an
  explicit global-state record `GState` mirroring the C globals;
* `malloc`/`realloc` failure and the UI status text (`update_status`) are
  not modelled.
-/

namespace UIPC

/-- The constant `IPC_MAP_BYTES = 0x7F00 + 0x100` (the fixed shared-region
byte length). -/
def IPC_MAP_BYTES : Nat := 0x7F00 + 0x100

/-- A little-endian `uint32_t` read `*(const uint32_t*)(base + pos)` of four
`uint8_t` cells (x86 layout). -/
def le32 (base : Nat → Nat) (pos : Nat) : Nat :=
  base pos % 256 + base (pos + 1) % 256 * 256 + base (pos + 2) % 256 * 65536 +
    base (pos + 3) % 256 * 16777216

/-- The `while` loop of `calc_block_len`.  Each iteration either returns or
advances `pos` by at least 12, so `avail` iterations always suffice; the
explicit `fuel` (instantiated with `avail` in `calc_block_len`) makes the
recursion structural.  Header sizes are
`sizeof(FS6IPC_READSTATEDATA_HDR) = 16` and
`sizeof(FS6IPC_WRITESTATEDATA_HDR) = 12`; the record identifiers are
`FS6IPC_READSTATEDATA_ID = 1` and `FS6IPC_WRITESTATEDATA_ID = 2`. -/
def calcGo (base : Nat → Nat) (avail : Nat) : Nat → Nat → Nat
  | 0, _ => 0
  | fuel + 1, pos =>
    if pos + 4 ≤ avail then
      if le32 base pos = 0 then pos + 4
      else if le32 base pos = 1 then
        if pos + 16 > avail then 0
        else if pos + 16 + le32 base (pos + 8) > avail then 0
        else calcGo base avail fuel (pos + 16 + le32 base (pos + 8))
      else if le32 base pos = 2 then
        if pos + 12 > avail then 0
        else if pos + 12 + le32 base (pos + 8) > avail then 0
        else calcGo base avail fuel (pos + 12 + le32 base (pos + 8))
      else 0
    else 0

/-- `calc_block_len(base, avail)` from `src/uipc_bridge.c`. -/
def calc_block_len (base : Nat → Nat) (avail : Nat) : Nat :=
  calcGo base avail avail 0

/-- `RecordsAt base pos e` states that the bytes of `base` from `pos` to `e`
form a chain of consecutive well-formed Read-State / Write-State records,
each header's `nBytes` field being the little-endian word 8 bytes into the
record. -/
inductive RecordsAt (base : Nat → Nat) : Nat → Nat → Prop
  | nil (pos : Nat) : RecordsAt base pos pos
  | readRec (pos e : Nat) (h1 : le32 base pos = 1)
      (hrest : RecordsAt base (pos + 16 + le32 base (pos + 8)) e) :
      RecordsAt base pos e
  | writeRec (pos e : Nat) (h2 : le32 base pos = 2)
      (hrest : RecordsAt base (pos + 12 + le32 base (pos + 8)) e) :
      RecordsAt base pos e

lemma recordsAt_le {base : Nat → Nat} {pos e : Nat} (h : RecordsAt base pos e) :
    pos ≤ e := by
  induction h with
  | nil p => exact Nat.le_refl p
  | readRec pos e h1 hrest ih => omega
  | writeRec pos e h2 hrest ih => omega

lemma recordsAt_calcGo {base : Nat → Nat} {avail : Nat} {pos e : Nat}
    (h : RecordsAt base pos e) :
    le32 base e = 0 → e + 4 ≤ avail →
      ∀ fuel, avail ≤ pos + 12 * fuel → calcGo base avail fuel pos = e + 4 := by
  induction h with
  | nil p =>
    intro hterm he fuel hfuel
    match fuel with
    | 0 => omega
    | f + 1 =>
      unfold calcGo
      rw [if_pos he, if_pos hterm]
  | readRec pos e h1 hrest ih =>
    intro hterm he fuel hfuel
    have hpe : pos + 16 + le32 base (pos + 8) ≤ e := recordsAt_le hrest
    match fuel with
    | 0 => omega
    | f + 1 =>
      unfold calcGo
      rw [if_pos (by omega : pos + 4 ≤ avail), h1]
      rw [if_neg (by omega : ¬ (1 : Nat) = 0), if_pos rfl]
      rw [if_neg (by omega : ¬ pos + 16 > avail)]
      rw [if_neg (by omega : ¬ pos + 16 + le32 base (pos + 8) > avail)]
      exact ih hterm he f (by omega)
  | writeRec pos e h2 hrest ih =>
    intro hterm he fuel hfuel
    have hpe : pos + 12 + le32 base (pos + 8) ≤ e := recordsAt_le hrest
    match fuel with
    | 0 => omega
    | f + 1 =>
      unfold calcGo
      rw [if_pos (by omega : pos + 4 ≤ avail), h2]
      rw [if_neg (by omega : ¬ (2 : Nat) = 0), if_neg (by omega : ¬ (2 : Nat) = 1), if_pos rfl]
      rw [if_neg (by omega : ¬ pos + 12 > avail)]
      rw [if_neg (by omega : ¬ pos + 12 + le32 base (pos + 8) > avail)]
      exact ih hterm he f (by omega)

lemma calcGo_complete {base : Nat → Nat} {avail : Nat} :
    ∀ fuel pos, calcGo base avail fuel pos ≠ 0 →
      ∃ e, RecordsAt base pos e ∧ le32 base e = 0 ∧ e + 4 ≤ avail ∧
        calcGo base avail fuel pos = e + 4 := by
  intro fuel
  induction fuel with
  | zero => intro pos h; simp [calcGo] at h
  | succ f ih =>
    intro pos h
    unfold calcGo at h ⊢
    by_cases hg : pos + 4 ≤ avail
    · rw [if_pos hg] at h ⊢
      by_cases h0 : le32 base pos = 0
      · rw [if_pos h0] at h ⊢
        exact ⟨pos, RecordsAt.nil pos, h0, hg, rfl⟩
      · rw [if_neg h0] at h ⊢
        by_cases h1 : le32 base pos = 1
        · rw [if_pos h1] at h ⊢
          by_cases hh : pos + 16 > avail
          · rw [if_pos hh] at h; exact absurd rfl h
          · rw [if_neg hh] at h ⊢
            by_cases hn : pos + 16 + le32 base (pos + 8) > avail
            · rw [if_pos hn] at h; exact absurd rfl h
            · rw [if_neg hn] at h ⊢
              obtain ⟨e, hrec, hterm, he, hval⟩ := ih _ h
              exact ⟨e, RecordsAt.readRec pos e h1 hrec, hterm, he, hval⟩
        · rw [if_neg h1] at h ⊢
          by_cases h2 : le32 base pos = 2
          · rw [if_pos h2] at h ⊢
            by_cases hh : pos + 12 > avail
            · rw [if_pos hh] at h; exact absurd rfl h
            · rw [if_neg hh] at h ⊢
              by_cases hn : pos + 12 + le32 base (pos + 8) > avail
              · rw [if_pos hn] at h; exact absurd rfl h
              · rw [if_neg hn] at h ⊢
                obtain ⟨e, hrec, hterm, he, hval⟩ := ih _ h
                exact ⟨e, RecordsAt.writeRec pos e h2 hrec, hterm, he, hval⟩
          · rw [if_neg h2] at h; exact absurd rfl h
    · rw [if_neg hg] at h; exact absurd rfl h

lemma calcGo_le {base : Nat → Nat} {avail : Nat} :
    ∀ fuel pos, calcGo base avail fuel pos ≤ avail := by
  intro fuel
  induction fuel with
  | zero => intro pos; simp [calcGo]
  | succ f ih =>
    intro pos
    unfold calcGo
    by_cases hg : pos + 4 ≤ avail
    · rw [if_pos hg]
      by_cases h0 : le32 base pos = 0
      · rw [if_pos h0]; omega
      · rw [if_neg h0]
        by_cases h1 : le32 base pos = 1
        · rw [if_pos h1]
          by_cases hh : pos + 16 > avail
          · rw [if_pos hh]; omega
          · rw [if_neg hh]
            by_cases hn : pos + 16 + le32 base (pos + 8) > avail
            · rw [if_pos hn]; omega
            · rw [if_neg hn]; exact ih _
        · rw [if_neg h1]
          by_cases h2 : le32 base pos = 2
          · rw [if_pos h2]
            by_cases hh : pos + 12 > avail
            · rw [if_pos hh]; omega
            · rw [if_neg hh]
              by_cases hn : pos + 12 + le32 base (pos + 8) > avail
              · rw [if_pos hn]; omega
              · rw [if_neg hn]; exact ih _
          · rw [if_neg h2]; omega
    · rw [if_neg hg]; omega

lemma le32_congr {f g : Nat → Nat} {pos : Nat}
    (h0 : f pos = g pos) (h1 : f (pos + 1) = g (pos + 1))
    (h2 : f (pos + 2) = g (pos + 2)) (h3 : f (pos + 3) = g (pos + 3)) :
    le32 f pos = le32 g pos := by
  unfold le32
  rw [h0, h1, h2, h3]

lemma calcGo_frame {f g : Nat → Nat} {avail : Nat}
    (hfg : ∀ i, i < avail → f i = g i) :
    ∀ fuel pos, calcGo f avail fuel pos = calcGo g avail fuel pos := by
  intro fuel
  induction fuel with
  | zero => intro pos; simp [calcGo]
  | succ fl ih =>
    intro pos
    unfold calcGo
    by_cases hg : pos + 4 ≤ avail
    · rw [if_pos hg, if_pos hg]
      have hid : le32 f pos = le32 g pos :=
        le32_congr (hfg pos (by omega)) (hfg (pos + 1) (by omega))
          (hfg (pos + 2) (by omega)) (hfg (pos + 3) (by omega))
      rw [hid]
      by_cases h0 : le32 g pos = 0
      · rw [if_pos h0, if_pos h0]
      · rw [if_neg h0, if_neg h0]
        by_cases h1 : le32 g pos = 1
        · rw [if_pos h1, if_pos h1]
          by_cases hh : pos + 16 > avail
          · rw [if_pos hh, if_pos hh]
          · rw [if_neg hh, if_neg hh]
            have hn8 : le32 f (pos + 8) = le32 g (pos + 8) :=
              le32_congr (hfg (pos + 8) (by omega)) (hfg (pos + 8 + 1) (by omega))
                (hfg (pos + 8 + 2) (by omega)) (hfg (pos + 8 + 3) (by omega))
            rw [hn8]
            by_cases hn : pos + 16 + le32 g (pos + 8) > avail
            · rw [if_pos hn, if_pos hn]
            · rw [if_neg hn, if_neg hn]; exact ih _
        · rw [if_neg h1, if_neg h1]
          by_cases h2 : le32 g pos = 2
          · rw [if_pos h2, if_pos h2]
            by_cases hh : pos + 12 > avail
            · rw [if_pos hh, if_pos hh]
            · rw [if_neg hh, if_neg hh]
              have hn8 : le32 f (pos + 8) = le32 g (pos + 8) :=
                le32_congr (hfg (pos + 8) (by omega)) (hfg (pos + 8 + 1) (by omega))
                  (hfg (pos + 8 + 2) (by omega)) (hfg (pos + 8 + 3) (by omega))
              rw [hn8]
              by_cases hn : pos + 12 + le32 g (pos + 8) > avail
              · rw [if_pos hn, if_pos hn]
              · rw [if_neg hn, if_neg hn]; exact ih _
          · rw [if_neg h2, if_neg h2]
    · rw [if_neg hg, if_neg hg]

/-- Concrete buffer: one complete Write-State record with `nBytes = 0`
filling a 12-byte buffer exactly, with no terminator after it. -/
def cxbuf : Nat → Nat := fun i => [2, 0, 0, 0, 0, 0, 0, 0, 0, 0, 0, 0].getD i 0

/-- Concrete buffer: one Read-State record with `nBytes = 2` followed by a
4-byte zero terminator (22 bytes). -/
def rbuf : Nat → Nat :=
  fun i => [1, 0, 0, 0, 0, 0, 0, 0, 2, 0, 0, 0, 9, 9, 0, 0, 0, 0, 0, 0, 0, 0].getD i 0

/-- Concrete buffer: one Write-State record with `nBytes = 1` followed by a
4-byte zero terminator (17 bytes). -/
def wbuf : Nat → Nat :=
  fun i => [2, 0, 0, 0, 0, 0, 0, 0, 1, 0, 0, 0, 171, 0, 0, 0, 0].getD i 0

/-- Concrete buffer pair agreeing on the first 4 bytes (a terminator) and
differing beyond them. -/
def bufA : Nat → Nat := fun i => if i < 4 then 0 else 7

/-- Second buffer of the pair. -/
def bufB : Nat → Nat := fun i => if i < 4 then 0 else 9

/-- Claim C1, counterexample: a well-formed Write-State record of payload
byte count `n = 0` placed at offset 0 of a 12-byte buffer.  The claim says
`calc_block_len` returns `12 + n = 12`; the code scans on past the record,
runs out of buffer without meeting a terminator, and returns 0. -/
theorem calc_block_len_single_cx :
    le32 cxbuf 0 = 2 ∧ le32 cxbuf 8 = 0 ∧
      calc_block_len cxbuf 12 = 0 ∧ calc_block_len cxbuf 12 ≠ 12 := by
  decide

/-- Claim C1 (amended): for a well-formed Read-State (resp. Write-State)
record of payload byte count `n` at offset 0 that is immediately followed by
a 4-byte zero terminator lying within `avail`, `calc_block_len` returns
`16 + n + 4` (resp. `12 + n + 4`): header plus payload plus the terminator.
A lone record with no terminator yields 0 (see the counterexample). -/
theorem calc_block_len_single_record (base : Nat → Nat) (avail n : Nat) :
    (le32 base 0 = 1 → le32 base 8 = n → le32 base (16 + n) = 0 →
      16 + n + 4 ≤ avail → calc_block_len base avail = 16 + n + 4) ∧
    (le32 base 0 = 2 → le32 base 8 = n → le32 base (12 + n) = 0 →
      12 + n + 4 ≤ avail → calc_block_len base avail = 12 + n + 4) := by
  constructor
  · intro h1 hn hterm he
    have chain : RecordsAt base 0 (16 + n) := by
      refine RecordsAt.readRec 0 (16 + n) h1 ?_
      have h : 0 + 16 + le32 base 8 = 16 + n := by rw [hn]
      rw [h]
      exact RecordsAt.nil (16 + n)
    exact recordsAt_calcGo chain hterm he avail (by omega)
  · intro h2 hn hterm he
    have chain : RecordsAt base 0 (12 + n) := by
      refine RecordsAt.writeRec 0 (12 + n) h2 ?_
      have h : 0 + 12 + le32 base 8 = 12 + n := by rw [hn]
      rw [h]
      exact RecordsAt.nil (12 + n)
    exact recordsAt_calcGo chain hterm he avail (by omega)

/-- Witness for the amended C1 theorem at the concrete buffer `rbuf`. -/
theorem calc_block_len_single_record_w :
    le32 rbuf 0 = 1 ∧ le32 rbuf 8 = 2 ∧ le32 rbuf (16 + 2) = 0 ∧
      calc_block_len rbuf 22 = 16 + 2 + 4 := by
  refine ⟨by decide, by decide, by decide, ?_⟩
  exact (calc_block_len_single_record rbuf 22 2).1 (by decide) (by decide)
    (by decide) (by decide)

/-- Claim C2: `calc_block_len(base, avail)` either returns 0 or a length at
most `avail`, and its value depends only on the bytes at indices `< avail`
(it never reads past `avail`): two buffers agreeing below `avail` give equal
results. -/
theorem calc_block_len_safe (f g : Nat → Nat) (avail : Nat)
    (hfg : ∀ i, i < avail → f i = g i) :
    calc_block_len f avail ≤ avail ∧
      calc_block_len f avail = calc_block_len g avail :=
  ⟨calcGo_le avail 0, calcGo_frame hfg avail 0⟩

/-- Witness for C2 at the concrete buffers `bufA`, `bufB` with `avail = 4`. -/
theorem calc_block_len_safe_w :
    calc_block_len bufA 4 ≤ 4 ∧
      calc_block_len bufA 4 = calc_block_len bufB 4 :=
  calc_block_len_safe bufA bufB 4 (by decide)

/-- Claim C9: `calc_block_len` scans consecutive records.  If the buffer
begins with a chain of well-formed Read-State/Write-State records occupying
bytes `[0, e)` followed by a 4-byte zero terminator inside `avail`, the
result is `e + 4` (the sum of the record lengths plus 4); conversely every
nonzero result arises exactly that way, so a buffer that ends, truncates a
record, or shows an unknown identifier before a terminator yields 0. -/
theorem calc_block_len_scans (base : Nat → Nat) (avail : Nat) :
    (∀ e, RecordsAt base 0 e → le32 base e = 0 → e + 4 ≤ avail →
      calc_block_len base avail = e + 4) ∧
    (calc_block_len base avail ≠ 0 →
      ∃ e, RecordsAt base 0 e ∧ le32 base e = 0 ∧ e + 4 ≤ avail ∧
        calc_block_len base avail = e + 4) :=
  ⟨fun _ h hterm he => recordsAt_calcGo h hterm he avail (by omega),
   fun h => calcGo_complete avail 0 h⟩

/-- Witness for C9 at the concrete buffer `wbuf` (one Write-State record of
13 bytes, then a terminator): the result is `13 + 4 = 17`. -/
theorem calc_block_len_scans_w :
    le32 wbuf 0 = 2 ∧ le32 wbuf 13 = 0 ∧ calc_block_len wbuf 17 = 13 + 4 := by
  refine ⟨by decide, by decide, ?_⟩
  have chain : RecordsAt wbuf 0 13 := by
    refine RecordsAt.writeRec 0 13 (by decide) ?_
    have h : 0 + 12 + le32 wbuf 8 = 13 := by decide
    rw [h]
    exact RecordsAt.nil 13
  exact (calc_block_len_scans wbuf 17).1 13 chain (by decide) (by decide)

/-- The uppercase hex digit emitted by `sprintf("%02X", ...)` for a nibble. -/
def hexDigitUpper (n : Nat) : Char :=
  ("0123456789ABCDEF".toList).getD n '0'

/-- `hex_encode(data, len, ...)`: two uppercase hex digits per byte, in
order.  Allocation failure is not modelled. -/
def hex_encode (data : List Nat) : List Char :=
  (data.map (fun b => [hexDigitUpper (b % 256 / 16), hexDigitUpper (b % 256 % 16)])).flatten

/-- Hex digits accepted by the CRT `%X` conversion (both cases). -/
def isHexDigitC (c : Char) : Bool :=
  ('0' ≤ c && c ≤ '9') || ('A' ≤ c && c ≤ 'F') || ('a' ≤ c && c ≤ 'f')

/-- Value of a hex digit accepted by `isHexDigitC`. -/
def hexValC (c : Char) : Nat :=
  if '0' ≤ c && c ≤ '9' then c.toNat - 48
  else if 'A' ≤ c && c ≤ 'F' then c.toNat - 55
  else c.toNat - 87

/-- The `isspace` class the CRT scanner skips. -/
def isSpaceC (c : Char) : Bool :=
  c = ' ' || c = '\t' || c = '\n' || c = '\x0b' || c = '\x0c' || c = '\r'

/-- Model of `sscanf(s, "%02X", &val)` as used by `hex_decode`: leading
whitespace is skipped (the skip does not count toward the field width),
then at most two hex digits are converted; no digit at all is a matching
failure.  Groups starting (after whitespace) with a sign or an `0x` prefix
have CRT-specific behavior and are not modelled; the theorems below exclude
them. -/
def scan02X (s : List Char) : Option Nat :=
  match s.dropWhile isSpaceC with
  | c1 :: c2 :: _ =>
    if isHexDigitC c1 then
      if isHexDigitC c2 then some (hexValC c1 * 16 + hexValC c2)
      else some (hexValC c1)
    else none
  | [c1] => if isHexDigitC c1 then some (hexValC c1) else none
  | [] => none

/-- The conversion loop of `hex_decode`: group `i` is scanned from
`hex + i * 2`; `out[i]` is written before the next group is examined, so on
a scan failure the groups already converted have been stored.  Returns
(success, bytes written). -/
def decodeLoop (hex : List Char) : Nat → Nat → Bool × List Nat
  | _, 0 => (true, [])
  | i, rem + 1 =>
    match scan02X (hex.drop (2 * i)) with
    | none => (false, [])
    | some v =>
      let r := decodeLoop hex (i + 1) rem
      (r.1, v % 256 :: r.2)

/-- `hex_decode(hex, out, out_cap, out_len)`.  First component: `some bytes`
models returning TRUE with `*out_len = len/2`; `none` models FALSE.  Second
component: the bytes actually written into `out` (also on failure). -/
def hex_decode (hex : List Char) (out_cap : Nat) : Option (List Nat) × List Nat :=
  if hex.length % 2 ≠ 0 then (none, [])
  else if hex.length / 2 > out_cap then (none, [])
  else
    let r := decodeLoop hex 0 (hex.length / 2)
    (if r.1 then some r.2 else none, r.2)

lemma hexDigitUpper_spec : ∀ n, n < 16 →
    isHexDigitC (hexDigitUpper n) = true ∧ isSpaceC (hexDigitUpper n) = false ∧
      hexValC (hexDigitUpper n) = n := by decide

lemma hexDigitUpper_upper : ∀ n, n < 16 →
    ('0' ≤ hexDigitUpper n ∧ hexDigitUpper n ≤ '9') ∨
      ('A' ≤ hexDigitUpper n ∧ hexDigitUpper n ≤ 'F') := by decide

lemma hex_encode_cons (d : Nat) (t : List Nat) :
    hex_encode (d :: t) =
      hexDigitUpper (d % 256 / 16) :: hexDigitUpper (d % 256 % 16) :: hex_encode t := by
  simp [hex_encode]

lemma hex_encode_length (b : List Nat) : (hex_encode b).length = 2 * b.length := by
  induction b with
  | nil => rfl
  | cons d t ih => rw [hex_encode_cons]; simp only [List.length_cons, ih]; omega

lemma scan02X_digits {a c : Nat} (ha : a < 16) (hc : c < 16) (rest : List Char) :
    scan02X (hexDigitUpper a :: hexDigitUpper c :: rest) = some (a * 16 + c) := by
  obtain ⟨hhex1, hsp1, hval1⟩ := hexDigitUpper_spec a ha
  obtain ⟨hhex2, hsp2, hval2⟩ := hexDigitUpper_spec c hc
  simp [scan02X, List.dropWhile, hsp1, hhex1, hhex2, hval1, hval2]

lemma decodeLoop_encode (b : List Nat) : ∀ (hex : List Char) (i : Nat),
    hex.drop (2 * i) = hex_encode b →
    decodeLoop hex i b.length = (true, b.map (fun d => d % 256)) := by
  induction b with
  | nil => intro hex i _; rfl
  | cons d t ih =>
    intro hex i hdrop
    have hscan : scan02X (hex.drop (2 * i)) =
        some ((d % 256 / 16) * 16 + d % 256 % 16) := by
      rw [hdrop, hex_encode_cons]
      exact scan02X_digits (by omega) (by omega) _
    have hnext : hex.drop (2 * (i + 1)) = hex_encode t := by
      have h2 := congrArg (List.drop 2) hdrop
      rw [List.drop_drop, hex_encode_cons] at h2
      rw [show 2 * (i + 1) = 2 * i + 2 by omega]
      exact h2
    show decodeLoop hex i (t.length + 1) = _
    rw [decodeLoop, hscan, ih hex (i + 1) hnext]
    have hv : (d % 256 / 16) * 16 + d % 256 % 16 = d % 256 := by omega
    simp [hv, Nat.mod_mod_of_dvd]

lemma decodeLoop_fails (hex : List Char) :
    ∀ rem i0 j, i0 ≤ j → j < i0 + rem → scan02X (hex.drop (2 * j)) = none →
      (decodeLoop hex i0 rem).1 = false := by
  intro rem
  induction rem with
  | zero => intro i0 j h1 h2 _; omega
  | succ r ih =>
    intro i0 j h1 h2 hscan
    rw [decodeLoop]
    by_cases h : i0 = j
    · subst h; rw [hscan]
    · cases hcase : scan02X (hex.drop (2 * i0)) with
      | none => rfl
      | some v =>
        simp only []
        exact ih (i0 + 1) j (by omega) (by omega) hscan

lemma map_mod_self {b : List Nat} (hb : ∀ x ∈ b, x < 256) :
    b.map (fun d => d % 256) = b := by
  induction b with
  | nil => rfl
  | cons d t ih =>
    simp only [List.map_cons]
    rw [Nat.mod_eq_of_lt (hb d (by simp)), ih (fun x hx => hb x (by simp [hx]))]

/-- Claim C8, counterexample: the even-length input `" 777"` contains the
two-character group `" 7"` which is not valid hex, yet `hex_decode`
succeeds (the CRT scanner skips the blank and reads on past the group
boundary), returning the bytes `[0x77, 0x77]`. -/
theorem hex_decode_nonhex_cx :
    (hex_decode (' ' :: '7' :: '7' :: '7' :: []) 2).1 = some [119, 119] ∧
      isHexDigitC ' ' = false := by decide

/-- Claim C8 (amended): `hex_decode(hex_encode b, |b|)` returns exactly `b`;
`hex_encode b` has length `2 * |b|` and consists of uppercase hex digits;
`hex_decode` fails on every odd-length input; and it fails on an even-length
input whose byte-group at some even index `2 i` starts with a character that
is not whitespace, not a hex digit and not a sign — but not on every
ill-formed group: leading whitespace inside a group is skipped (see the
counterexample). -/
theorem hex_codec_spec :
    (∀ b : List Nat, (∀ x ∈ b, x < 256) →
      hex_decode (hex_encode b) b.length = (some b, b)) ∧
    (∀ b : List Nat, (hex_encode b).length = 2 * b.length) ∧
    (∀ b : List Nat, ∀ c ∈ hex_encode b,
      ('0' ≤ c ∧ c ≤ '9') ∨ ('A' ≤ c ∧ c ≤ 'F')) ∧
    (∀ (hex : List Char) (cap : Nat), hex.length % 2 = 1 →
      (hex_decode hex cap).1 = none) ∧
    (∀ (hex rest : List Char) (c : Char) (cap i : Nat),
      hex.length % 2 = 0 → i < hex.length / 2 →
      hex.drop (2 * i) = c :: rest →
      isSpaceC c = false → isHexDigitC c = false → c ≠ '+' → c ≠ '-' →
      (hex_decode hex cap).1 = none) := by
  refine ⟨?_, hex_encode_length, ?_, ?_, ?_⟩
  · intro b hb
    have hloop := decodeLoop_encode b (hex_encode b) 0 (by simp)
    rw [map_mod_self hb] at hloop
    unfold hex_decode
    rw [if_neg (by rw [hex_encode_length]; omega)]
    rw [if_neg (by rw [hex_encode_length]; omega)]
    have hhalf : (hex_encode b).length / 2 = b.length := by
      rw [hex_encode_length]; omega
    rw [hhalf, hloop]
    rfl
  · intro b
    induction b with
    | nil => intro c hc; simp [hex_encode] at hc
    | cons d t ih =>
      intro c hc
      rw [hex_encode_cons, List.mem_cons, List.mem_cons] at hc
      rcases hc with h | h | h
      · subst h; exact hexDigitUpper_upper _ (by omega)
      · subst h; exact hexDigitUpper_upper _ (by omega)
      · exact ih c h
  · intro hex cap hodd
    unfold hex_decode
    rw [if_pos (by omega)]
  · intro hex rest c cap i heven hlt hdrop hsp hhex _ _
    unfold hex_decode
    rw [if_neg (by omega)]
    by_cases hcap : hex.length / 2 > cap
    · rw [if_pos hcap]
    · rw [if_neg hcap]
      have hscan : scan02X (hex.drop (2 * i)) = none := by
        rw [hdrop]
        unfold scan02X
        rw [List.dropWhile_cons_of_neg (by simp [hsp])]
        cases rest with
        | nil => simp [hhex]
        | cons x t => simp [hhex]
      have hfail := decodeLoop_fails hex (hex.length / 2) 0 i (by omega)
        (by omega) hscan
      simp [hfail]

/-- Witness for the amended C8 theorem at concrete inputs. -/
theorem hex_codec_spec_w :
    (hex_decode (hex_encode [171, 0, 15]) 3 = (some [171, 0, 15], [171, 0, 15])) ∧
    (hex_encode [171]).length = 2 * 1 ∧
    (('A' ∈ hex_encode [171]) ∧
      (('0' ≤ 'A' ∧ 'A' ≤ '9') ∨ ('A' ≤ 'A' ∧ 'A' ≤ 'F'))) ∧
    (['A'].length % 2 = 1 ∧ (hex_decode ['A'] 5).1 = none) ∧
    ((hex_decode ('7' :: '7' :: '!' :: '7' :: []) 9).1 = none) :=
  ⟨hex_codec_spec.1 [171, 0, 15] (by decide),
   hex_codec_spec.2.1 [171],
   ⟨by decide, hex_codec_spec.2.2.1 [171] 'A' (by decide)⟩,
   ⟨by decide, hex_codec_spec.2.2.2.1 ['A'] 5 (by decide)⟩,
   hex_codec_spec.2.2.2.2 ('7' :: '7' :: '!' :: '7' :: []) ['7'] '!' 9 1
     (by decide) (by decide) (by decide) (by decide) (by decide) (by decide)
     (by decide)⟩

/-- The mutable globals of `uipc_bridge.c` relevant to the core:
`g_sock != INVALID_SOCKET`, `g_reconnectTimer != 0`, `g_hwndMain != NULL`,
and the `g_shared` cache (`atom`, `view != NULL`, `length`). -/
structure GState where
  sock : Bool
  timer : Bool
  hwnd : Bool
  sharedAtom : Nat
  sharedMapped : Bool
  sharedLen : Nat
deriving DecidableEq

/-- `stop_reconnect_timer()`: `g_reconnectTimer` is zeroed unconditionally
(the `KillTimer` call itself needs the window but has no modelled effect). -/
def stop_reconnect_timer (s : GState) : GState := {s with timer := false}

/-- `request_reconnect_timer()`: does nothing without a main window; arms
the fixed 1-second timer only when none is armed. -/
def request_reconnect_timer (s : GState) : GState :=
  if ¬ s.hwnd then s
  else if ¬ s.timer then {s with timer := true}
  else s

/-- `close_socket()`: closes `g_sock` if open, then always requests the
reconnect timer (`update_status` is UI-only and not modelled). -/
def close_socket (s : GState) : GState :=
  request_reconnect_timer {s with sock := false}

/-- Outcome of one connection attempt: `socket()` fails, `inet_pton` fails,
`connect()` fails, or `connect()` succeeds. -/
inductive ConnectOutcome
  | sockFail
  | resolveFail
  | connFail
  | connOk
deriving DecidableEq

/-- `ensure_socket()`, with the OS outcome as a parameter.  Returns
(result, new state, number of `connect()` calls performed). -/
def ensure_socket (o : ConnectOutcome) (s : GState) : Bool × GState × Nat :=
  if s.sock then (true, s, 0)
  else
    match o with
    | .sockFail => (false, s, 0)
    | .resolveFail => (false, s, 0)
    | .connFail => (false, request_reconnect_timer s, 1)
    | .connOk => (true, stop_reconnect_timer {s with sock := true}, 1)

/-- A disconnected state with a main window and no timer armed. -/
def s0 : GState := ⟨false, false, true, 0, false, 0⟩

/-- A connected state with a main window and no timer armed. -/
def sConn : GState := ⟨true, false, true, 0, false, 0⟩

/-- Claim C5, counterexample: `ensure_socket` invoked while disconnected
with no timer armed (and a main window present), when `socket()` creation
fails: the claim says the retry timer is armed, but the code returns FALSE
without touching the timer (only the `connect()`-failure path arms it). -/
theorem ensure_socket_sockfail_cx :
    s0.sock = false ∧ s0.timer = false ∧ s0.hwnd = true ∧
      (ensure_socket .sockFail s0).1 = false ∧
      (ensure_socket .sockFail s0).2.1.timer = false := by decide

/-- Claim C5 (amended): `ensure_socket` is a no-op returning success while
connected; while disconnected it performs at most one `connect()`.  On
`connect()` failure it stays disconnected and arms the 1-second retry timer
if a window exists and none is armed; on `socket()`-creation or
host-resolution failure it stays disconnected WITHOUT arming the timer; on
success it is connected and the timer is disarmed. -/
theorem ensure_socket_spec (o : ConnectOutcome) (s : GState) :
    (s.sock = true → ensure_socket o s = (true, s, 0)) ∧
    (s.sock = false →
      (ensure_socket o s).2.2 ≤ 1 ∧
      (o = .sockFail → ensure_socket o s = (false, s, 0)) ∧
      (o = .resolveFail → ensure_socket o s = (false, s, 0)) ∧
      (o = .connFail →
        ensure_socket o s = (false, request_reconnect_timer s, 1)) ∧
      (o = .connOk →
        ensure_socket o s = (true, {s with sock := true, timer := false}, 1))) := by
  constructor
  · intro hs
    simp [ensure_socket, hs]
  · intro hs
    cases o <;> simp [ensure_socket, hs, stop_reconnect_timer]

/-- Witness for the amended C5 theorem: a connected no-op and a disconnected
`connect()`-failure that arms the timer. -/
theorem ensure_socket_spec_w :
    (sConn.sock = true ∧ ensure_socket .connFail sConn = (true, sConn, 0)) ∧
    (s0.sock = false ∧
      ensure_socket .connFail s0 = (false, request_reconnect_timer s0, 1) ∧
      (request_reconnect_timer s0).timer = true) :=
  ⟨⟨rfl, (ensure_socket_spec .connFail sConn).1 rfl⟩,
   ⟨rfl, ((ensure_socket_spec .connFail s0).2 rfl).2.2.2.1 rfl, by decide⟩⟩

/-- Network behavior for one `send_json_request` call: the connect outcome
used by `ensure_socket`, whether the `send` loop succeeds, and the line
delivered by `recv_line` (`none` models a `recv` failure, which closes the
socket inside `recv_line`). -/
structure NetEnv where
  conn : ConnectOutcome
  sendOk : Bool
  recvLine : Option (List Char)

/-- `strstr(hay, needle)` returning the suffix of `hay` starting at the
first occurrence of `needle`, or `none`. -/
def strstrDrop (needle : List Char) : List Char → Option (List Char)
  | [] => if needle.isPrefixOf [] then some [] else none
  | c :: t =>
    if needle.isPrefixOf (c :: t) then some (c :: t) else strstrDrop needle t

/-- The substring `"ok":true` looked for in the reply line. -/
def okNeedle : List Char := ("\"ok\":true").toList

/-- The key `"replyHex":"` looked for in the reply line. -/
def replyHexNeedle : List Char := ("\"replyHex\":\"").toList

/-- Extraction of the `replyHex` value from the reply line: the text after
the first occurrence of the key, up to the next `"` (`strchr`); `none` when
the key or the closing quote is missing (both return FALSE in the C). -/
def replyHexField (line : List Char) : Option (List Char) :=
  match strstrDrop replyHexNeedle line with
  | none => none
  | some suff =>
    let afterKey := suff.drop replyHexNeedle.length
    if '"' ∈ afterKey then some (afterKey.takeWhile (fun c => c != '"'))
    else none

/-- `send_json_request(data, len, dwData, cbData, outBuf, outCap, outLen)`.
The outgoing JSON line is built from `data`/`dwData`/`cbData` but its text
is never observed again, so the model does not retain it (`hex_encode`
and `_snprintf` cannot fail here apart from allocation, which is not
modelled).  Returns (result, new state, new contents of `outBuf`,
`*outLen`); the decoded reply is written into `outBuf` before any length
check, also when the decode fails partway. -/
def send_json_request (env : NetEnv) (s : GState) (data : List Nat)
    (dwData cbData : Nat) (outBuf : List Nat) (outCap : Nat) :
    Bool × GState × List Nat × Option Nat :=
  if ¬ (ensure_socket env.conn s).1 then
    (false, (ensure_socket env.conn s).2.1, outBuf, none)
  else if ¬ env.sendOk then
    (false, close_socket (ensure_socket env.conn s).2.1, outBuf, none)
  else
    match env.recvLine with
    | none => (false, close_socket (ensure_socket env.conn s).2.1, outBuf, none)
    | some line =>
      if (strstrDrop okNeedle line).isNone then
        (false, (ensure_socket env.conn s).2.1, outBuf, none)
      else
        match replyHexField line with
        | none => (false, (ensure_socket env.conn s).2.1, outBuf, none)
        | some hexReply =>
          match (hex_decode hexReply outCap).1 with
          | none =>
            (false, (ensure_socket env.conn s).2.1,
              (hex_decode hexReply outCap).2 ++
                outBuf.drop (hex_decode hexReply outCap).2.length, none)
          | some bytes =>
            (true, (ensure_socket env.conn s).2.1,
              (hex_decode hexReply outCap).2 ++
                outBuf.drop (hex_decode hexReply outCap).2.length,
              some bytes.length)

/-- `forward_block(dwData, block, len)`: forwards `block` (in place: the
reply is decoded into it) and fails when the decoded reply length differs
from `len`.  Returns (result, new state, new block contents). -/
def forward_block (env : NetEnv) (s : GState) (dwData : Nat)
    (block : List Nat) : Bool × GState × List Nat :=
  let r := send_json_request env s block dwData block.length block block.length
  if ¬ r.1 then (false, r.2.1, r.2.2.1)
  else if (r.2.2.2).getD 0 ≠ block.length then (false, r.2.1, r.2.2.1)
  else (true, r.2.1, r.2.2.1)

lemma decodeLoop_len (hex : List Char) :
    ∀ rem i, ((decodeLoop hex i rem).2).length ≤ rem := by
  intro rem
  induction rem with
  | zero => intro i; simp [decodeLoop]
  | succ r ih =>
    intro i
    rw [decodeLoop]
    cases scan02X (hex.drop (2 * i)) with
    | none => simp
    | some v => simpa using ih (i + 1)

lemma hex_decode_written_le (hex : List Char) (cap : Nat) :
    ((hex_decode hex cap).2).length ≤ cap := by
  unfold hex_decode
  by_cases h1 : hex.length % 2 ≠ 0
  · rw [if_pos h1]; simp
  · rw [if_neg h1]
    by_cases h2 : hex.length / 2 > cap
    · rw [if_pos h2]; simp
    · rw [if_neg h2]
      have := decodeLoop_len hex (hex.length / 2) 0
      simpa using Nat.le_trans this (by omega)

lemma append_drop_len (w out : List Nat) (h : w.length ≤ out.length) :
    (w ++ out.drop w.length).length = out.length := by
  simp only [List.length_append, List.length_drop]
  omega

lemma send_json_outBuf_len (env : NetEnv) (s : GState) (data : List Nat)
    (dwData cbData : Nat) (outBuf : List Nat) :
    ((send_json_request env s data dwData cbData outBuf outBuf.length).2.2.1).length
      = outBuf.length := by
  unfold send_json_request
  split
  · rfl
  · split
    · rfl
    · split
      · rfl
      · split
        · rfl
        · split
          · rfl
          · split
            · exact append_drop_len _ _ (hex_decode_written_le _ _)
            · exact append_drop_len _ _ (hex_decode_written_le _ _)


lemma hex_decode_some_eq {hex : List Char} {cap : Nat} {bytes written : List Nat}
    (h : hex_decode hex cap = (some bytes, written)) : bytes = written := by
  unfold hex_decode at h
  by_cases h1 : hex.length % 2 ≠ 0
  · rw [if_pos h1] at h
    simp at h
  · rw [if_neg h1] at h
    by_cases h2 : hex.length / 2 > cap
    · rw [if_pos h2] at h
      simp at h
    · rw [if_neg h2] at h
      have hfst := congrArg Prod.fst h
      have hsnd := congrArg Prod.snd h
      simp only [] at hfst hsnd
      by_cases hok : (decodeLoop hex 0 (hex.length / 2)).1
      · rw [if_pos hok] at hfst
        have hbw := Option.some.inj hfst
        rw [← hbw, ← hsnd]
      · rw [if_neg hok] at hfst
        exact absurd hfst (by simp)

lemma send_json_decoded (env : NetEnv) (s : GState) (data : List Nat)
    (dwData cbData : Nat) (outBuf : List Nat) (outCap : Nat)
    (line hexReply : List Char) (res : Option (List Nat)) (written : List Nat)
    (hs : s.sock = true) (hsend : env.sendOk = true)
    (hline : env.recvLine = some line)
    (hok : (strstrDrop okNeedle line).isNone = false)
    (hfield : replyHexField line = some hexReply)
    (hdec : hex_decode hexReply outCap = (res, written)) :
    send_json_request env s data dwData cbData outBuf outCap =
      match res with
      | none => (false, s, written ++ outBuf.drop written.length, none)
      | some bytes =>
        (true, s, written ++ outBuf.drop written.length, some bytes.length) := by
  have hens : ensure_socket env.conn s = (true, s, 0) := by
    simp [ensure_socket, hs]
  unfold send_json_request
  rw [hens, hline]
  simp only [hsend, hok, hfield, hdec]
  cases res <;> simp

/-- Claim C4, counterexample: a reply line with no truthy ok field
(`"ok":false`) on an open connection: `send_json_request` returns failure,
but the socket is NOT closed (the state is unchanged), and a subsequent
`ensure_socket` performs zero connect attempts — no fresh connect is
triggered, contrary to the claim. -/
theorem remote_reject_cx :
    (send_json_request ⟨.connOk, true, some (("\"ok\":false").toList)⟩ sConn
        [1] 7 1 [1] 1).1 = false ∧
    (send_json_request ⟨.connOk, true, some (("\"ok\":false").toList)⟩ sConn
        [1] 7 1 [1] 1).2.1 = sConn ∧
    (ensure_socket .connOk sConn).2.2 = 0 := by decide

/-- Claim C4 (amended): a reply line without a truthy ok field makes the
client return failure, but it does NOT close the connection: the state is
returned unchanged (socket still open, timer untouched), so the next
forward reuses the existing connection instead of reconnecting. -/
theorem remote_reject_keeps_connection (env : NetEnv) (s : GState)
    (data outBuf : List Nat) (dwData cbData outCap : Nat) (line : List Char)
    (hs : s.sock = true) (hsend : env.sendOk = true)
    (hline : env.recvLine = some line)
    (hok : strstrDrop okNeedle line = none) :
    send_json_request env s data dwData cbData outBuf outCap =
      (false, s, outBuf, none) := by
  have hens : ensure_socket env.conn s = (true, s, 0) := by
    simp [ensure_socket, hs]
  unfold send_json_request
  rw [hens, hline]
  simp [hsend, hok]

/-- Witness for the amended C4 theorem at a concrete rejecting reply. -/
theorem remote_reject_keeps_connection_w :
    sConn.sock = true ∧
      send_json_request ⟨.connOk, true, some (("\"ok\":false").toList)⟩ sConn
        [1] 7 1 [1] 1 = (false, sConn, [1], none) :=
  ⟨rfl, remote_reject_keeps_connection ⟨.connOk, true, _⟩ sConn [1] [1] 7 1 1
    (("\"ok\":false").toList) rfl rfl rfl (by decide)⟩

/-- A concrete accepted reply line whose hex payload decodes to the single
byte `0xAA`. -/
def mmLine : List Char := ("\"ok\":true,\"replyHex\":\"AA\"").toList

/-- A concrete network environment delivering `mmLine`. -/
def envMM : NetEnv := ⟨.connOk, true, some mmLine⟩

/-- Claim C3, counterexample: an accepted reply whose hex decodes to 1 byte
against a 2-byte block: `forward_block` returns failure on the length
mismatch, but the TCP connection is NOT closed — the state (socket open) is
unchanged, contrary to the claim. -/
theorem forward_block_mismatch_cx :
    (forward_block envMM sConn 7 [0, 0]).1 = false ∧
    (forward_block envMM sConn 7 [0, 0]).2.1 = sConn ∧
    sConn.sock = true := by decide

/-- Claim C3 (amended): `forward_block` never changes the length of the
caller's block (on success or failure); an accepted reply whose decoded
length differs from the block length makes it return failure, but the
connection state is left unchanged — the socket stays open (the C closes it
only on send/recv failures). -/
theorem forward_block_mismatch_spec :
    (∀ (env : NetEnv) (s : GState) (dwData : Nat) (block : List Nat),
      ((forward_block env s dwData block).2.2).length = block.length) ∧
    (∀ (env : NetEnv) (s : GState) (dwData : Nat) (block : List Nat)
      (line hexReply : List Char) (bytes written : List Nat),
      s.sock = true → env.sendOk = true → env.recvLine = some line →
      (strstrDrop okNeedle line).isNone = false →
      replyHexField line = some hexReply →
      hex_decode hexReply block.length = (some bytes, written) →
      bytes.length ≠ block.length →
      forward_block env s dwData block =
        (false, s, written ++ block.drop written.length)) := by
  constructor
  · intro env s dwData block
    have hlen := send_json_outBuf_len env s block dwData block.length block
    unfold forward_block
    rcases hr : send_json_request env s block dwData block.length block
      block.length with ⟨ok, s1, buf, ol⟩
    rw [hr] at hlen
    simp only []
    split
    · exact hlen
    · split
      · exact hlen
      · exact hlen
  · intro env s dwData block line hexReply bytes written hs hsend hline hok
      hfield hdec hne
    have hsj := send_json_decoded env s block dwData block.length block
      block.length line hexReply (some bytes) written hs hsend hline hok
      hfield hdec
    unfold forward_block
    rw [hsj]
    simp [hne]

/-- Witness for the amended C3 theorem at the concrete environment `envMM`
and block `[0, 0]`. -/
theorem forward_block_mismatch_w :
    ((forward_block envMM sConn 7 [0, 0]).2.2).length = [0, 0].length ∧
      forward_block envMM sConn 7 [0, 0] = (false, sConn, [170, 0]) :=
  ⟨forward_block_mismatch_spec.1 envMM sConn 7 [0, 0],
   forward_block_mismatch_spec.2 envMM sConn 7 [0, 0] mmLine
     (['A', 'A']) [170] [170] rfl rfl rfl (by decide) (by decide) (by decide)
     (by decide)⟩

/-- Claim C10: the reply hex is decoded directly into the caller's block
BEFORE the length check, so when an accepted reply decodes to `m` bytes
with `m ≠ len` (`m ≤ len` holds since the decode respects the capacity),
`forward_block` returns failure while the first `m` bytes of the block have
already been overwritten with the decoded reply and the rest is untouched:
failure is not atomic with respect to the block's contents. -/
theorem forward_block_partial_overwrite (env : NetEnv) (s : GState)
    (dwData : Nat) (block : List Nat) (line hexReply : List Char)
    (bytes written : List Nat)
    (hs : s.sock = true) (hsend : env.sendOk = true)
    (hline : env.recvLine = some line)
    (hok : (strstrDrop okNeedle line).isNone = false)
    (hfield : replyHexField line = some hexReply)
    (hdec : hex_decode hexReply block.length = (some bytes, written))
    (hne : bytes.length ≠ block.length) :
    (forward_block env s dwData block).1 = false ∧
    ((forward_block env s dwData block).2.2).take bytes.length = bytes ∧
    ((forward_block env s dwData block).2.2).drop bytes.length =
      block.drop bytes.length := by
  have hbw : bytes = written := hex_decode_some_eq hdec
  subst hbw
  have hsj := send_json_decoded env s block dwData block.length block
    block.length line hexReply (some bytes) bytes hs hsend hline hok
    hfield hdec
  have hfb : forward_block env s dwData block =
      (false, s, bytes ++ block.drop bytes.length) := by
    unfold forward_block
    rw [hsj]
    simp [hne]
  rw [hfb]
  exact ⟨rfl, List.take_left bytes _, List.drop_left bytes _⟩

/-- Witness for C10: block `[5, 6, 7]`, accepted reply decoding to the
single byte `0xAB`: the forward fails and the block has become
`[171, 6, 7]`. -/
theorem forward_block_partial_overwrite_w :
    (forward_block ⟨.connOk, true,
        some (("\"ok\":true,\"replyHex\":\"AB\"").toList)⟩ sConn 7
        [5, 6, 7]).1 = false ∧
    ((forward_block ⟨.connOk, true,
        some (("\"ok\":true,\"replyHex\":\"AB\"").toList)⟩ sConn 7
        [5, 6, 7]).2.2).take 1 = [171] ∧
    ((forward_block ⟨.connOk, true,
        some (("\"ok\":true,\"replyHex\":\"AB\"").toList)⟩ sConn 7
        [5, 6, 7]).2.2).drop 1 = [6, 7] :=
  forward_block_partial_overwrite ⟨.connOk, true, _⟩ sConn 7 [5, 6, 7]
    (("\"ok\":true,\"replyHex\":\"AB\"").toList) (['A', 'B']) [171] [171]
    rfl rfl rfl (by decide) (by decide) (by decide) (by decide)

/-- Outcomes of the OS calls inside the cache-miss path of
`ensure_shared_ctx`: `GlobalGetAtomNameW`, `OpenFileMappingW`,
`MapViewOfFile`. -/
structure MapEnv where
  nameOk : Bool
  openOk : Bool
  mapOk : Bool

/-- `ensure_shared_ctx(atom)` with the OS outcomes as parameters.  Returns
(result, new state, whether the cache-miss remap path ran — i.e. whether
the previous mapping was released and OS mapping calls were attempted). -/
def ensure_shared_ctx (menv : MapEnv) (s : GState) (atom : Nat) :
    Bool × GState × Bool :=
  if atom = 0 then (false, s, false)
  else if s.sharedAtom = atom ∧ s.sharedMapped = true then (true, s, false)
  else if ¬ menv.nameOk then
    (false, {s with sharedAtom := 0, sharedMapped := false, sharedLen := 0},
      true)
  else if ¬ menv.openOk then
    (false, {s with sharedAtom := 0, sharedMapped := false, sharedLen := 0},
      true)
  else if ¬ menv.mapOk then
    (false, {s with sharedAtom := 0, sharedMapped := false, sharedLen := 0},
      true)
  else
    (true, {s with sharedAtom := atom, sharedMapped := true, sharedLen := IPC_MAP_BYTES}, true)

/-- What a dispatched shared-region request did: whether
`ensure_shared_ctx` was invoked, whether its remap path ran, whether
`calc_block_len` was invoked, whether `forward_block` was invoked. -/
structure Trace where
  ensureCalled : Bool
  osMapAttempt : Bool
  parseCalled : Bool
  forwardCalled : Bool
deriving DecidableEq

/-- The empty trace: no work performed. -/
def noTrace : Trace := ⟨false, false, false, false⟩

/-- `forward_shared_request(atom, offset)`.  `region` gives the bytes of
the mapped view; the reply bytes written back into the view by
`forward_block` are its buffer component and are not tracked further here
(the dispatch claims do not observe them).  Returns (result, new state,
trace). -/
def forward_shared_request (menv : MapEnv) (nenv : NetEnv)
    (region : Nat → Nat) (s : GState) (atom offset : Nat) :
    Bool × GState × Trace :=
  if ¬ (ensure_shared_ctx menv s atom).1 then
    (false, (ensure_shared_ctx menv s atom).2.1,
      ⟨true, (ensure_shared_ctx menv s atom).2.2, false, false⟩)
  else if offset ≥ ((ensure_shared_ctx menv s atom).2.1).sharedLen then
    (false, (ensure_shared_ctx menv s atom).2.1,
      ⟨true, (ensure_shared_ctx menv s atom).2.2, false, false⟩)
  else
    ((forward_block nenv (ensure_shared_ctx menv s atom).2.1 0
        ((List.range
          (if calc_block_len (fun i => region (offset + i))
              (((ensure_shared_ctx menv s atom).2.1).sharedLen - offset) = 0
           then ((ensure_shared_ctx menv s atom).2.1).sharedLen - offset
           else calc_block_len (fun i => region (offset + i))
              (((ensure_shared_ctx menv s atom).2.1).sharedLen - offset))).map
          (fun i => region (offset + i) % 256))).1,
      (forward_block nenv (ensure_shared_ctx menv s atom).2.1 0
        ((List.range
          (if calc_block_len (fun i => region (offset + i))
              (((ensure_shared_ctx menv s atom).2.1).sharedLen - offset) = 0
           then ((ensure_shared_ctx menv s atom).2.1).sharedLen - offset
           else calc_block_len (fun i => region (offset + i))
              (((ensure_shared_ctx menv s atom).2.1).sharedLen - offset))).map
          (fun i => region (offset + i) % 256))).2.1,
      ⟨true, (ensure_shared_ctx menv s atom).2.2, true, true⟩)

/-- `handle_registered_request(wParam, lParam)` (the `g_uMsgFSASM`
message handler): negative `lParam` is not handled (0); `wParam == 0` is
handled (1) without any further work; otherwise the request is forwarded
from the shared region.  Returns (LRESULT, new state, trace). -/
def handle_registered_request (menv : MapEnv) (nenv : NetEnv)
    (region : Nat → Nat) (s : GState) (wParam : Nat) (lParam : Int) :
    Nat × GState × Trace :=
  if lParam < 0 then (0, s, noTrace)
  else if wParam = 0 then (1, s, noTrace)
  else
    ((if (forward_shared_request menv nenv region s wParam lParam.toNat).1
      then 1 else 0),
      (forward_shared_request menv nenv region s wParam lParam.toNat).2.1,
      (forward_shared_request menv nenv region s wParam lParam.toNat).2.2)

/-- A mapping environment in which every OS call succeeds. -/
def menvOk : MapEnv := ⟨true, true, true⟩

/-- A network environment whose recv immediately fails (never reached by
the dispatch claims below). -/
def nenvNone : NetEnv := ⟨.connOk, true, none⟩

lemma forward_shared_ensureCalled (menv : MapEnv) (nenv : NetEnv)
    (region : Nat → Nat) (s : GState) (atom offset : Nat) :
    ((forward_shared_request menv nenv region s atom offset).2.2).ensureCalled
      = true := by
  unfold forward_shared_request
  split
  · rfl
  · split
    · rfl
    · rfl

/-- Claim C6, counterexample: a null/empty handle (`wParam = 0`) with the
POSITIVE offset 5 is reported handled (1) with no work at all
(`ensure_mapped` is never called), contrary to the claim that every
request other than offset 0 with a null handle proceeds to `ensure_mapped`.
-/
theorem dispatch_null_handle_cx :
    handle_registered_request menvOk nenvNone (fun _ => 0) s0 0 5 =
      (1, s0, noTrace) ∧ noTrace.ensureCalled = false := by decide

/-- Claim C6 (amended): a negative offset is not handled; a null/empty
handle with ANY non-negative offset (not only offset 0) is reported
handled as a no-op without calling `ensure_mapped`; a non-null handle with
a non-negative offset always proceeds to call `ensure_mapped` on the
cache. -/
theorem dispatch_spec (menv : MapEnv) (nenv : NetEnv) (region : Nat → Nat)
    (s : GState) (wParam : Nat) (lParam : Int) :
    (lParam < 0 →
      handle_registered_request menv nenv region s wParam lParam =
        (0, s, noTrace)) ∧
    (0 ≤ lParam → wParam = 0 →
      handle_registered_request menv nenv region s wParam lParam =
        (1, s, noTrace)) ∧
    (0 ≤ lParam → wParam ≠ 0 →
      ((handle_registered_request menv nenv region s wParam
        lParam).2.2).ensureCalled = true) := by
  refine ⟨?_, ?_, ?_⟩
  · intro hneg
    unfold handle_registered_request
    rw [if_pos hneg]
  · intro hpos hw
    unfold handle_registered_request
    rw [if_neg (by omega), if_pos hw]
  · intro hpos hw
    unfold handle_registered_request
    rw [if_neg (by omega)]
    rw [if_neg hw]
    exact forward_shared_ensureCalled menv nenv region s wParam lParam.toNat

/-- Witness for the amended C6 theorem: the three dispatch outcomes at
concrete inputs. -/
theorem dispatch_spec_w :
    (handle_registered_request menvOk nenvNone (fun _ => 0) s0 3 (-1) =
      (0, s0, noTrace)) ∧
    (handle_registered_request menvOk nenvNone (fun _ => 0) s0 0 9 =
      (1, s0, noTrace)) ∧
    (((handle_registered_request menvOk nenvNone (fun _ => 0) s0 3
        2).2.2).ensureCalled = true) :=
  ⟨(dispatch_spec menvOk nenvNone (fun _ => 0) s0 3 (-1)).1 (by decide),
   (dispatch_spec menvOk nenvNone (fun _ => 0) s0 0 9).2.1 (by decide) rfl,
   (dispatch_spec menvOk nenvNone (fun _ => 0) s0 3 2).2.2 (by decide)
     (by decide)⟩

lemma ensure_shared_len (menv : MapEnv) (s : GState) (atom : Nat)
    (hinv : s.sharedMapped = true → s.sharedLen = IPC_MAP_BYTES)
    (hok : (ensure_shared_ctx menv s atom).1 = true) :
    ((ensure_shared_ctx menv s atom).2.1).sharedLen = IPC_MAP_BYTES := by
  unfold ensure_shared_ctx at hok ⊢
  by_cases h0 : atom = 0
  · rw [if_pos h0] at hok
    simp at hok
  · rw [if_neg h0] at hok ⊢
    by_cases h1 : s.sharedAtom = atom ∧ s.sharedMapped = true
    · rw [if_pos h1] at hok ⊢
      exact hinv h1.2
    · rw [if_neg h1] at hok ⊢
      by_cases h2 : ¬ menv.nameOk = true
      · rw [if_pos h2] at hok
        simp at hok
      · rw [if_neg h2] at hok ⊢
        by_cases h3 : ¬ menv.openOk = true
        · rw [if_pos h3] at hok
          simp at hok
        · rw [if_neg h3] at hok ⊢
          by_cases h4 : ¬ menv.mapOk = true
          · rw [if_pos h4] at hok
            simp at hok
          · rw [if_neg h4] at hok ⊢

/-- Claim C7, counterexample: a request for `offset = 0x8000`
(`IPC_MAP_BYTES`, the region length) with an uncached handle: it is
rejected as not handled without a frame parse, but the mapping IS
attempted first (the remap path of `ensure_shared_ctx` runs before the
offset bound check), contrary to the claim. -/
theorem offset_at_length_cx :
    (handle_registered_request menvOk nenvNone (fun _ => 0) s0 1 32768).1
      = 0 ∧
    ((handle_registered_request menvOk nenvNone (fun _ => 0) s0 1
        32768).2.2).osMapAttempt = true ∧
    ((handle_registered_request menvOk nenvNone (fun _ => 0) s0 1
        32768).2.2).parseCalled = false ∧
    s0.sharedMapped = false := by decide

/-- Claim C7 (amended): a shared-region request with a non-null handle and
offset equal to the region length (`0x7F00 + 0x100`) is rejected as not
handled without a frame parse and without a forward — but only after
`ensure_shared_ctx` has run, which may attempt the mapping first. -/
theorem offset_at_length_spec (menv : MapEnv) (nenv : NetEnv)
    (region : Nat → Nat) (s : GState) (atom : Nat)
    (hatom : atom ≠ 0)
    (hinv : s.sharedMapped = true → s.sharedLen = IPC_MAP_BYTES) :
    (handle_registered_request menv nenv region s atom
      ((IPC_MAP_BYTES : Nat) : Int)).1 = 0 ∧
    ((handle_registered_request menv nenv region s atom
      ((IPC_MAP_BYTES : Nat) : Int)).2.2).parseCalled = false ∧
    ((handle_registered_request menv nenv region s atom
      ((IPC_MAP_BYTES : Nat) : Int)).2.2).forwardCalled = false := by
  have htn : ((IPC_MAP_BYTES : Nat) : Int).toNat = IPC_MAP_BYTES := by
    simp
  unfold handle_registered_request
  rw [if_neg (by simp [IPC_MAP_BYTES]), if_neg hatom, htn]
  unfold forward_shared_request
  by_cases hok : (ensure_shared_ctx menv s atom).1 = true
  · rw [if_neg (show ¬ ¬ (ensure_shared_ctx menv s atom).1 = true by
      simp [hok])]
    have hlen := ensure_shared_len menv s atom hinv hok
    rw [if_pos (le_of_eq hlen)]
    exact ⟨rfl, rfl, rfl⟩
  · rw [if_pos hok]
    exact ⟨rfl, rfl, rfl⟩

/-- Witness for the amended C7 theorem at a concrete uncached handle. -/
theorem offset_at_length_spec_w :
    (handle_registered_request menvOk nenvNone (fun _ => 0) s0 1
      ((IPC_MAP_BYTES : Nat) : Int)).1 = 0 ∧
    ((handle_registered_request menvOk nenvNone (fun _ => 0) s0 1
      ((IPC_MAP_BYTES : Nat) : Int)).2.2).parseCalled = false ∧
    ((handle_registered_request menvOk nenvNone (fun _ => 0) s0 1
      ((IPC_MAP_BYTES : Nat) : Int)).2.2).forwardCalled = false :=
  offset_at_length_spec menvOk nenvNone (fun _ => 0) s0 1 (by decide)
    (by decide)

end UIPC
